import Mathlib

/-
  Shallow embedding of the DecentralizedLoadBalancerSimulator core
  (Task, Message, PeerNode, NetworkManager) and proofs about its
  load-balancing, messaging and peer-management operations.

  All C++ ints are modelled as Lean Int; std::queue as a Lean List with
  push at the tail and pop at the head; std::map as an association list
  iterated in strictly increasing key order (the std::map invariant is
  carried as a Pairwise hypothesis where a proof depends on it).
-/

namespace LoadBalancer

/-- A work unit: Task(id, complexity), immutable after construction
(src/src/Task.cpp). The creation timestamp plays no role in any claim
and is omitted. -/
structure Task where
  id_ : Int
  complexity_ : Int
deriving DecidableEq

/-- The four message kinds of the protocol (src/include/Message.h). -/
inductive MessageType where
  | LOAD_UPDATE
  | TASK_REQUEST
  | TASK_TRANSFER
  | PEER_DISCOVERY
deriving DecidableEq

/-- A message: discriminator, routing ids and the two optional payload
fields, exactly the five data members of the C++ class
(src/include/Message.h). -/
structure Message where
  type_ : MessageType
  sender_id_ : Int
  receiver_id_ : Int
  load_value_ : Int
  task_ : Option Task
deriving DecidableEq

/-- The C++ constructor Message(type, sender_id, receiver_id): it zeroes
the load value and leaves the task pointer null (src/src/Message.cpp). -/
def Message.mkMessage (type_ : MessageType) (sender_id receiver_id : Int) : Message :=
  ⟨type_, sender_id, receiver_id, 0, none⟩

def Message.getType (m : Message) : MessageType := m.type_

def Message.getSenderId (m : Message) : Int := m.sender_id_

def Message.getReceiverId (m : Message) : Int := m.receiver_id_

/-- Message::setLoadValue stores the int unconditionally, with no check
of the variant (src/src/Message.cpp). -/
def Message.setLoadValue (m : Message) (load : Int) : Message :=
  { m with load_value_ := load }

/-- Message::getLoadValue returns the stored int unconditionally, with no
check of the variant (src/src/Message.cpp). -/
def Message.getLoadValue (m : Message) : Int := m.load_value_

/-- Message::setTask stores the task pointer unconditionally
(src/src/Message.cpp). -/
def Message.setTask (m : Message) (task : Task) : Message :=
  { m with task_ := some task }

/-- Message::getTask returns the stored task pointer unconditionally:
none models a null shared_ptr (src/src/Message.cpp). -/
def Message.getTask (m : Message) : Option Task := m.task_

/-- The state of one PeerNode: the data members of the C++ class that
carry protocol state (src/include/PeerNode.h). Mutexes, condition
variables and the thread handles have no data content and are omitted;
task_queue_ and message_queue_ are FIFO lists (head = front), peer_loads_
is the std::map as an association list in key order, peers_ the
std::vector in insertion order. -/
structure PeerNode where
  id_ : Int
  load_threshold_ : Int
  tasks_processed_ : Int
  task_queue_ : List Task
  peer_loads_ : List (Int × Int)
  peers_ : List Int
  message_queue_ : List Message
  running_ : Bool
deriving DecidableEq

/-- PeerNode::getCurrentLoad: the size of the task queue
(src/src/PeerNode.cpp lines 75-78). -/
def PeerNode.getCurrentLoad (n : PeerNode) : Int := (n.task_queue_.length : Int)

/-- PeerNode::addTask: pushes the task at the tail of the FIFO task queue
(src/src/PeerNode.cpp lines 63-73). -/
def PeerNode.addTask (n : PeerNode) (task : Task) : PeerNode :=
  { n with task_queue_ := n.task_queue_ ++ [task] }

/-- PeerNode::handleMessage: pushes the message at the tail of the inbox,
unconditionally - the running_ flag is not consulted
(src/src/PeerNode.cpp lines 84-90). -/
def PeerNode.handleMessage (n : PeerNode) (message : Message) : PeerNode :=
  { n with message_queue_ := n.message_queue_ ++ [message] }

/-- PeerNode::addPeer: appends the peer id to peers_ unless it is already
present; no comparison against the node's own id is made
(src/src/PeerNode.cpp lines 92-99). -/
def PeerNode.addPeer (n : PeerNode) (peer_id : Int) : PeerNode :=
  if peer_id ∈ n.peers_ then n
  else { n with peers_ := n.peers_ ++ [peer_id] }

/-- Insertion into a std::map modelled as a key-sorted association list:
peer_loads_[k] = v upserts, keeping keys strictly increasing. -/
def mapInsert {α : Type} (k : Int) (v : α) : List (Int × α) → List (Int × α)
  | [] => [(k, v)]
  | e :: rest =>
    if k < e.1 then (k, v) :: e :: rest
    else if k = e.1 then (k, v) :: rest
    else e :: mapInsert k v rest

/-- One dispatch step of PeerNode::messageProcessorLoop on a dequeued
message (src/src/PeerNode.cpp lines 204-236): LOAD_UPDATE upserts
peer_loads_[sender] = load; TASK_TRANSFER enqueues the carried task when
the pointer is non-null; PEER_DISCOVERY adds the sender as a peer;
anything else is ignored. -/
def PeerNode.processMessage (n : PeerNode) (message : Message) : PeerNode :=
  match message.getType with
  | MessageType.LOAD_UPDATE =>
      { n with peer_loads_ :=
          mapInsert message.getSenderId message.getLoadValue n.peer_loads_ }
  | MessageType.TASK_TRANSFER =>
      match message.getTask with
      | some task => n.addTask task
      | none => n
  | MessageType.PEER_DISCOVERY => n.addPeer message.getSenderId
  | MessageType.TASK_REQUEST => n

/-- The scan loop of PeerNode::selectBestPeer (src/src/PeerNode.cpp
lines 266-274): walks the map entries in order, replacing the running
minimum and best peer whenever an entry's load is strictly below the
minimum. -/
def selectBestPeerLoop : Int → Int → List (Int × Int) → Int
  | _, best_peer, [] => best_peer
  | min_load, best_peer, e :: rest =>
    if e.2 < min_load then selectBestPeerLoop e.2 e.1 rest
    else selectBestPeerLoop min_load best_peer rest

/-- PeerNode::selectBestPeer on an explicit view and current depth: -1 on
an empty map, otherwise the scan loop seeded with min_load = the node's
current load and best_peer = -1 (src/src/PeerNode.cpp lines 259-277). -/
def selectBestPeerFrom (my_load : Int) (peer_loads : List (Int × Int)) : Int :=
  if peer_loads = [] then -1
  else selectBestPeerLoop my_load (-1) peer_loads

/-- PeerNode::selectBestPeer (src/src/PeerNode.cpp lines 259-277). -/
def PeerNode.selectBestPeer (n : PeerNode) : Int :=
  selectBestPeerFrom n.getCurrentLoad n.peer_loads_

/-- The NetworkManager registry: the std::map from node id to node, as a
key-ordered association list (src/include/NetworkManager.h). -/
structure NetworkManager where
  nodes_ : List (Int × PeerNode)
deriving DecidableEq

/-- First-match association-list lookup: std::map::find. -/
def lookupNode (node_id : Int) : List (Int × PeerNode) → Option PeerNode
  | [] => none
  | e :: rest => if e.1 = node_id then some e.2 else lookupNode node_id rest

/-- Apply f to the registered node with the given id (delivery through the
stored pointer mutates that node in place). -/
def updNode (node_id : Int) (f : PeerNode → PeerNode)
    (l : List (Int × PeerNode)) : List (Int × PeerNode) :=
  l.map (fun e => if e.1 = node_id then (e.1, f e.2) else e)

/-- NetworkManager::registerNode: nodes_[id] = node, overwriting any
previous registration (src/src/NetworkManager.cpp lines 11-17). -/
def NetworkManager.registerNode (nm : NetworkManager) (node_id : Int)
    (node : PeerNode) : NetworkManager :=
  ⟨mapInsert node_id node nm.nodes_⟩

/-- NetworkManager::sendMessage: looks up the message's receiver in the
registry; if found, delivers via handleMessage; otherwise only logs and
drops the message (src/src/NetworkManager.cpp lines 19-38). -/
def NetworkManager.sendMessage (nm : NetworkManager) (message : Message) :
    NetworkManager :=
  match lookupNode message.getReceiverId nm.nodes_ with
  | some _ => ⟨updNode message.getReceiverId (fun n => n.handleMessage message) nm.nodes_⟩
  | none => nm

/-- The delivery loop of NetworkManager::broadcastMessage: hand the
message to each collected receiver in turn
(src/src/NetworkManager.cpp lines 52-54). -/
def deliverAll (message : Message) (receiver_ids : List Int)
    (l : List (Int × PeerNode)) : List (Int × PeerNode) :=
  receiver_ids.foldl (fun acc rid => updNode rid (fun n => n.handleMessage message) acc) l

/-- NetworkManager::broadcastMessage: collects every registered node whose
id differs from the sender, then delivers the message to each of them
once via handleMessage (src/src/NetworkManager.cpp lines 40-61). -/
def NetworkManager.broadcastMessage (nm : NetworkManager) (sender_id : Int)
    (message : Message) : NetworkManager :=
  let receiver_ids := (nm.nodes_.filter (fun e => e.1 != sender_id)).map Prod.fst
  ⟨deliverAll message receiver_ids nm.nodes_⟩

/-- PeerNode::offloadTask for the node registered under id me: pick the
best peer from the node's own view; if one exists, unicast a
TASK_TRANSFER carrying the task; otherwise re-add the task to the node's
own queue (src/src/PeerNode.cpp lines 241-256). -/
def offloadTask (me : Int) (task : Task) (nm : NetworkManager) : NetworkManager :=
  match lookupNode me nm.nodes_ with
  | none => nm
  | some st =>
    let best_peer := st.selectBestPeer
    if best_peer ≠ -1 then
      nm.sendMessage ((Message.mkMessage MessageType.TASK_TRANSFER me best_peer).setTask task)
    else
      ⟨updNode me (fun n => n.addTask task) nm.nodes_⟩

/-- Drop the front of the task queue (the lines of loadMonitorLoop that
pop the head task before offloading, src/src/PeerNode.cpp lines 166-173). -/
def PeerNode.popFront (n : PeerNode) : PeerNode :=
  { n with task_queue_ := n.task_queue_.tail }

/-- One iteration of PeerNode::loadMonitorLoop for the node registered
under id me (src/src/PeerNode.cpp lines 146-179): sample the current
load, broadcast a LOAD_UPDATE carrying it, and - only when the load is
strictly above the threshold - pop the head task (if any) and attempt to
offload it. -/
def loadMonitorStep (me : Int) (nm : NetworkManager) : NetworkManager :=
  match lookupNode me nm.nodes_ with
  | none => nm
  | some st =>
    let current_load := st.getCurrentLoad
    let load_msg := (Message.mkMessage MessageType.LOAD_UPDATE me (-1)).setLoadValue current_load
    let nm1 := nm.broadcastMessage me load_msg
    if current_load > st.load_threshold_ then
      match st.task_queue_ with
      | [] => nm1
      | t :: _ => offloadTask me t ⟨updNode me PeerNode.popFront nm1.nodes_⟩
    else nm1

/-! ### Helper lemmas about the peer-selection scan loop -/

theorem selectBestPeerLoop_ge (l : List (Int × Int)) :
    ∀ min_load best_peer : Int, (∀ e ∈ l, min_load ≤ e.2) →
      selectBestPeerLoop min_load best_peer l = best_peer := by
  induction l with
  | nil => intro _ _ _; rfl
  | cons hd tl ih =>
    intro min_load best_peer h
    have hhd : ¬ hd.2 < min_load := not_lt.mpr (h hd (List.mem_cons_self hd tl))
    simp only [selectBestPeerLoop, if_neg hhd]
    exact ih min_load best_peer (fun e he => h e (List.mem_cons_of_mem hd he))

theorem selectBestPeerLoop_spec (l : List (Int × Int)) :
    ∀ min_load best_peer : Int,
      l.Pairwise (fun a b => a.1 < b.1) →
      (selectBestPeerLoop min_load best_peer l = best_peer ∧
        ∀ e ∈ l, min_load ≤ e.2) ∨
      (∃ e ∈ l, selectBestPeerLoop min_load best_peer l = e.1 ∧ e.2 < min_load ∧
        (∀ x ∈ l, e.2 ≤ x.2) ∧ (∀ x ∈ l, x.2 = e.2 → e.1 ≤ x.1)) := by
  induction l with
  | nil => intro _ _ _; left; exact ⟨rfl, by simp⟩
  | cons hd tl ih =>
    intro min_load best_peer hp
    rw [List.pairwise_cons] at hp
    obtain ⟨hk, hp'⟩ := hp
    by_cases h : hd.2 < min_load
    · simp only [selectBestPeerLoop, if_pos h]
      rcases ih hd.2 hd.1 hp' with ⟨heq, hall⟩ | ⟨e, hmem, heq, hlt, hmin, hid⟩
      · right
        refine ⟨hd, List.mem_cons_self hd tl, heq, h, ?_, ?_⟩
        · intro x hx
          rcases List.mem_cons.mp hx with rfl | hx'
          · exact le_refl _
          · exact hall x hx'
        · intro x hx _
          rcases List.mem_cons.mp hx with rfl | hx'
          · exact le_refl _
          · exact le_of_lt (hk x hx')
      · right
        refine ⟨e, List.mem_cons_of_mem hd hmem, heq, lt_trans hlt h, ?_, ?_⟩
        · intro x hx
          rcases List.mem_cons.mp hx with rfl | hx'
          · exact le_of_lt hlt
          · exact hmin x hx'
        · intro x hx hxe
          rcases List.mem_cons.mp hx with rfl | hx'
          · exact absurd hxe (ne_of_gt hlt)
          · exact hid x hx' hxe
    · simp only [selectBestPeerLoop, if_neg h]
      rcases ih min_load best_peer hp' with ⟨heq, hall⟩ | ⟨e, hmem, heq, hlt, hmin, hid⟩
      · left
        refine ⟨heq, ?_⟩
        intro x hx
        rcases List.mem_cons.mp hx with rfl | hx'
        · exact not_lt.mp h
        · exact hall x hx'
      · right
        refine ⟨e, List.mem_cons_of_mem hd hmem, heq, hlt, ?_, ?_⟩
        · intro x hx
          rcases List.mem_cons.mp hx with rfl | hx'
          · exact le_of_lt (lt_of_lt_of_le hlt (not_lt.mp h))
          · exact hmin x hx'
        · intro x hx hxe
          rcases List.mem_cons.mp hx with rfl | hx'
          · exact absurd hxe (ne_of_gt (lt_of_lt_of_le hlt (not_lt.mp h)))
          · exact hid x hx' hxe

theorem selectBestPeerLoop_mem (l : List (Int × Int)) :
    ∀ min_load best_peer : Int,
      selectBestPeerLoop min_load best_peer l = best_peer ∨
      selectBestPeerLoop min_load best_peer l ∈ l.map Prod.fst := by
  induction l with
  | nil => intro _ _; left; rfl
  | cons hd tl ih =>
    intro min_load best_peer
    by_cases h : hd.2 < min_load
    · simp only [selectBestPeerLoop, if_pos h]
      rcases ih hd.2 hd.1 with heq | hmem
      · right; rw [heq]; exact List.mem_map_of_mem Prod.fst (List.mem_cons_self hd tl)
      · right; exact List.mem_cons_of_mem hd.1 hmem
    · simp only [selectBestPeerLoop, if_neg h]
      rcases ih min_load best_peer with heq | hmem
      · left; exact heq
      · right; exact List.mem_cons_of_mem hd.1 hmem

/-! ### Helper lemmas about the registry and message delivery -/

theorem lookupNode_updNode (node_id k : Int) (f : PeerNode → PeerNode)
    (l : List (Int × PeerNode)) :
    lookupNode k (updNode node_id f l) =
      if k = node_id then Option.map f (lookupNode k l) else lookupNode k l := by
  induction l with
  | nil => by_cases h : k = node_id <;> simp [updNode, lookupNode, h]
  | cons hd tl ih =>
    have hcons : updNode node_id f (hd :: tl) =
        (if hd.1 = node_id then (hd.1, f hd.2) else hd) :: updNode node_id f tl := rfl
    rw [hcons]
    by_cases h2 : hd.1 = k
    · by_cases h1 : hd.1 = node_id
      · have hkn : k = node_id := h2.symm.trans h1
        simp [lookupNode, h1, h2, hkn]
      · have hkn : ¬ k = node_id := fun h => h1 (h2.trans h)
        simp [lookupNode, h1, h2, hkn]
    · have hlhs : lookupNode k
          ((if hd.1 = node_id then (hd.1, f hd.2) else hd) :: updNode node_id f tl) =
          lookupNode k (updNode node_id f tl) := by
        by_cases h1 : hd.1 = node_id
        · rw [if_pos h1]; simp [lookupNode, h2]
        · rw [if_neg h1]; simp [lookupNode, h2]
      rw [hlhs, ih]
      by_cases h3 : k = node_id
      · have h2' : ¬ hd.1 = node_id := fun h => h2 (h.trans h3.symm)
        simp [lookupNode, h2', h3]
      · simp [lookupNode, h2, h3]

theorem updNode_keys (node_id : Int) (f : PeerNode → PeerNode)
    (l : List (Int × PeerNode)) :
    (updNode node_id f l).map Prod.fst = l.map Prod.fst := by
  induction l with
  | nil => rfl
  | cons hd tl ih =>
    have hcons : updNode node_id f (hd :: tl) =
        (if hd.1 = node_id then (hd.1, f hd.2) else hd) :: updNode node_id f tl := rfl
    rw [hcons, List.map_cons, List.map_cons, ih]
    by_cases h : hd.1 = node_id <;> simp [h]

theorem lookupNode_of_mem (k : Int) (v : PeerNode) (l : List (Int × PeerNode))
    (hnd : (l.map Prod.fst).Nodup) (hmem : (k, v) ∈ l) :
    lookupNode k l = some v := by
  induction l with
  | nil => cases hmem
  | cons hd tl ih =>
    rw [List.map_cons, List.nodup_cons] at hnd
    rcases List.mem_cons.mp hmem with heq | hmem'
    · rw [← heq]; simp [lookupNode]
    · have hne : ¬ hd.1 = k := by
        intro h
        exact hnd.1 (h ▸ List.mem_map_of_mem Prod.fst hmem')
      simp [lookupNode, hne, ih hnd.2 hmem']

theorem deliverAll_keys (message : Message) (receiver_ids : List Int) :
    ∀ l : List (Int × PeerNode),
      (deliverAll message receiver_ids l).map Prod.fst = l.map Prod.fst := by
  induction receiver_ids with
  | nil => intro l; rfl
  | cons r rs ih =>
    intro l
    simp only [deliverAll, List.foldl_cons]
    rw [show List.foldl (fun acc rid =>
        updNode rid (fun n => n.handleMessage message) acc) (updNode r (fun n => n.handleMessage message) l) rs =
        deliverAll message rs (updNode r (fun n => n.handleMessage message) l) from rfl]
    rw [ih, updNode_keys]

theorem lookupNode_deliverAll_not_mem (message : Message) (k : Int)
    (receiver_ids : List Int) :
    ∀ l : List (Int × PeerNode), k ∉ receiver_ids →
      lookupNode k (deliverAll message receiver_ids l) = lookupNode k l := by
  induction receiver_ids with
  | nil => intro l _; rfl
  | cons r rs ih =>
    intro l hk
    have hkr : ¬ k = r := fun h => hk (h ▸ List.mem_cons_self r rs)
    have hks : k ∉ rs := fun h => hk (List.mem_cons_of_mem r h)
    simp only [deliverAll, List.foldl_cons]
    rw [show List.foldl (fun acc rid =>
        updNode rid (fun n => n.handleMessage message) acc) (updNode r (fun n => n.handleMessage message) l) rs =
        deliverAll message rs (updNode r (fun n => n.handleMessage message) l) from rfl]
    rw [ih _ hks, lookupNode_updNode, if_neg hkr]

theorem lookupNode_deliverAll_mem (message : Message) (k : Int)
    (receiver_ids : List Int) :
    ∀ l : List (Int × PeerNode), receiver_ids.Nodup → k ∈ receiver_ids →
      lookupNode k (deliverAll message receiver_ids l) =
        Option.map (fun n => n.handleMessage message) (lookupNode k l) := by
  induction receiver_ids with
  | nil => intro _ _ hk; cases hk
  | cons r rs ih =>
    intro l hnd hk
    rw [List.nodup_cons] at hnd
    simp only [deliverAll, List.foldl_cons]
    rw [show List.foldl (fun acc rid =>
        updNode rid (fun n => n.handleMessage message) acc) (updNode r (fun n => n.handleMessage message) l) rs =
        deliverAll message rs (updNode r (fun n => n.handleMessage message) l) from rfl]
    rcases List.mem_cons.mp hk with rfl | hk'
    · rw [lookupNode_deliverAll_not_mem message k rs _ hnd.1,
        lookupNode_updNode, if_pos rfl]
    · have hkr : ¬ k = r := by
        intro h; exact hnd.1 (h ▸ hk')
      rw [ih _ hnd.2 hk', lookupNode_updNode, if_neg hkr]

theorem lookupNode_broadcast_sender (nm : NetworkManager) (sender_id : Int)
    (message : Message) :
    lookupNode sender_id (nm.broadcastMessage sender_id message).nodes_ =
      lookupNode sender_id nm.nodes_ := by
  have hnot : sender_id ∉ (nm.nodes_.filter (fun e => e.1 != sender_id)).map Prod.fst := by
    intro hmem
    rcases List.mem_map.mp hmem with ⟨e, he, heq⟩
    have hf := (List.mem_filter.mp he).2
    rw [heq] at hf
    simp at hf
  exact lookupNode_deliverAll_not_mem message sender_id _ nm.nodes_ hnot

theorem offloadTask_eq (me : Int) (task : Task) (nm : NetworkManager)
    (st : PeerNode) (hme : lookupNode me nm.nodes_ = some st) :
    offloadTask me task nm =
      (if st.selectBestPeer ≠ -1 then
        nm.sendMessage
          ((Message.mkMessage MessageType.TASK_TRANSFER me st.selectBestPeer).setTask task)
      else ⟨updNode me (fun n => n.addTask task) nm.nodes_⟩) := by
  unfold offloadTask
  rw [hme]

theorem loadMonitorStep_eq (me : Int) (nm : NetworkManager)
    (st : PeerNode) (hme : lookupNode me nm.nodes_ = some st) :
    loadMonitorStep me nm =
      (let nm1 := nm.broadcastMessage me
          ((Message.mkMessage MessageType.LOAD_UPDATE me (-1)).setLoadValue st.getCurrentLoad)
       if st.getCurrentLoad > st.load_threshold_ then
         match st.task_queue_ with
         | [] => nm1
         | t :: _ => offloadTask me t ⟨updNode me PeerNode.popFront nm1.nodes_⟩
       else nm1) := by
  unfold loadMonitorStep
  rw [hme]

/-! ### Claim C1 -/

/-- Claim C1: for every peer-load view and every current depth, the
peer-selection operation selectBestPeer returns either absence (-1) or a
peer whose recorded depth is strictly less than the current depth; when
it returns a peer, that peer has the minimum recorded depth among all
entries with depth below the current depth and, among all peers sharing
that minimum depth, it is the one with the smallest peer id; and it
returns absence whenever the view is empty or no entry has depth below
the current depth. The std::map iteration order is carried as the
Pairwise sortedness hypothesis. -/
theorem selectBestPeer_min_depth_smallest_id (n : PeerNode)
    (hsorted : n.peer_loads_.Pairwise (fun a b => a.1 < b.1)) :
    ((n.peer_loads_ = [] ∨ ∀ e ∈ n.peer_loads_, n.getCurrentLoad ≤ e.2) →
      n.selectBestPeer = -1) ∧
    (n.selectBestPeer = -1 ∨
      ∃ e ∈ n.peer_loads_, n.selectBestPeer = e.1 ∧ e.2 < n.getCurrentLoad ∧
        (∀ x ∈ n.peer_loads_, x.2 < n.getCurrentLoad → e.2 ≤ x.2) ∧
        (∀ x ∈ n.peer_loads_, x.2 = e.2 → e.1 ≤ x.1)) := by
  constructor
  · rintro (hm | hall)
    · simp [PeerNode.selectBestPeer, selectBestPeerFrom, hm]
    · by_cases hm : n.peer_loads_ = []
      · simp [PeerNode.selectBestPeer, selectBestPeerFrom, hm]
      · simp only [PeerNode.selectBestPeer, selectBestPeerFrom, if_neg hm]
        exact selectBestPeerLoop_ge _ _ _ hall
  · by_cases hm : n.peer_loads_ = []
    · left; simp [PeerNode.selectBestPeer, selectBestPeerFrom, hm]
    · simp only [PeerNode.selectBestPeer, selectBestPeerFrom, if_neg hm]
      rcases selectBestPeerLoop_spec n.peer_loads_ n.getCurrentLoad (-1) hsorted with
        ⟨heq, _⟩ | ⟨e, hmem, heq, hlt, hmin, hid⟩
      · left; exact heq
      · right; exact ⟨e, hmem, heq, hlt, fun x hx _ => hmin x hx, hid⟩

/-- A concrete node for exercising Claim C1: depth 5, three view entries,
two of them tied at the minimum depth 2. -/
def c1Node : PeerNode :=
  { id_ := 7, load_threshold_ := 2, tasks_processed_ := 0,
    task_queue_ := [⟨0, 1⟩, ⟨1, 1⟩, ⟨2, 1⟩, ⟨3, 1⟩, ⟨4, 1⟩],
    peer_loads_ := [(1, 2), (2, 2), (4, 9)],
    peers_ := [1, 2, 4], message_queue_ := [], running_ := true }

/-- Claim C1, witnessed on c1Node (its view is sorted by peer id and the
selection picks peer 1, the smallest id among the two minimum-depth
peers). -/
theorem selectBestPeer_min_depth_smallest_id_witness :
    c1Node.peer_loads_.Pairwise (fun a b => a.1 < b.1) ∧
    (((c1Node.peer_loads_ = [] ∨ ∀ e ∈ c1Node.peer_loads_, c1Node.getCurrentLoad ≤ e.2) →
        c1Node.selectBestPeer = -1) ∧
      (c1Node.selectBestPeer = -1 ∨
        ∃ e ∈ c1Node.peer_loads_, c1Node.selectBestPeer = e.1 ∧
          e.2 < c1Node.getCurrentLoad ∧
          (∀ x ∈ c1Node.peer_loads_, x.2 < c1Node.getCurrentLoad → e.2 ≤ x.2) ∧
          (∀ x ∈ c1Node.peer_loads_, x.2 = e.2 → e.1 ≤ x.1))) :=
  ⟨by decide, selectBestPeer_min_depth_smallest_id c1Node (by decide)⟩

/-! ### Claim C5 -/

/-- Claim C5: for every registry state and every sender id, broadcast
delivers the message to exactly the registered handlers whose id differs
from the sender id - each such handler's inbox gains the message exactly
once, the sender's own entry is untouched, the set of registered ids is
unchanged - and with only the sender registered the broadcast changes
nothing (zero deliveries, no error). -/
theorem broadcastMessage_delivers_except_self (nm : NetworkManager)
    (sender_id : Int) (message : Message)
    (hnd : (nm.nodes_.map Prod.fst).Nodup) :
    ((nm.broadcastMessage sender_id message).nodes_.map Prod.fst =
        nm.nodes_.map Prod.fst) ∧
    (∀ nid st, (nid, st) ∈ nm.nodes_ → nid ≠ sender_id →
        lookupNode nid (nm.broadcastMessage sender_id message).nodes_ =
          some (st.handleMessage message)) ∧
    (lookupNode sender_id (nm.broadcastMessage sender_id message).nodes_ =
        lookupNode sender_id nm.nodes_) ∧
    (∀ st, nm.nodes_ = [(sender_id, st)] →
        nm.broadcastMessage sender_id message = nm) := by
  have hrids : ((nm.nodes_.filter (fun e => e.1 != sender_id)).map Prod.fst).Nodup :=
    hnd.sublist ((List.filter_sublist nm.nodes_).map Prod.fst)
  refine ⟨?_, ?_, ?_, ?_⟩
  · exact deliverAll_keys message _ nm.nodes_
  · intro nid st hmem hne
    have hin : nid ∈ (nm.nodes_.filter (fun e => e.1 != sender_id)).map Prod.fst :=
      List.mem_map.mpr ⟨(nid, st), List.mem_filter.mpr ⟨hmem, by simp [hne]⟩, rfl⟩
    have h1 :
        lookupNode nid (nm.broadcastMessage sender_id message).nodes_ =
          Option.map (fun n => n.handleMessage message) (lookupNode nid nm.nodes_) :=
      lookupNode_deliverAll_mem message nid _ nm.nodes_ hrids hin
    rw [h1, lookupNode_of_mem nid st nm.nodes_ hnd hmem]
    rfl
  · exact lookupNode_broadcast_sender nm sender_id message
  · intro st h
    cases nm with
    | mk nodes =>
      simp only at h
      subst h
      simp [NetworkManager.broadcastMessage, deliverAll]

/-- A three-node registry for exercising Claim C5. -/
def c5Nm : NetworkManager :=
  ⟨[(0, { id_ := 0, load_threshold_ := 10, tasks_processed_ := 0, task_queue_ := [],
          peer_loads_ := [], peers_ := [1, 2], message_queue_ := [], running_ := true }),
    (1, { id_ := 1, load_threshold_ := 10, tasks_processed_ := 0, task_queue_ := [],
          peer_loads_ := [], peers_ := [0, 2], message_queue_ := [], running_ := true }),
    (2, { id_ := 2, load_threshold_ := 10, tasks_processed_ := 0, task_queue_ := [],
          peer_loads_ := [], peers_ := [0, 1], message_queue_ := [], running_ := true })]⟩

/-- The gossip message node 1 broadcasts in the Claim C5 witness. -/
def c5Msg : Message :=
  (Message.mkMessage MessageType.LOAD_UPDATE 1 (-1)).setLoadValue 0

/-- Claim C5, witnessed on a concrete three-node registry with sender 1. -/
theorem broadcastMessage_delivers_except_self_witness :
    (c5Nm.nodes_.map Prod.fst).Nodup ∧
    (((c5Nm.broadcastMessage 1 c5Msg).nodes_.map Prod.fst =
        c5Nm.nodes_.map Prod.fst) ∧
      (∀ nid st, (nid, st) ∈ c5Nm.nodes_ → nid ≠ 1 →
          lookupNode nid (c5Nm.broadcastMessage 1 c5Msg).nodes_ =
            some (st.handleMessage c5Msg)) ∧
      (lookupNode 1 (c5Nm.broadcastMessage 1 c5Msg).nodes_ =
          lookupNode 1 c5Nm.nodes_) ∧
      (∀ st, c5Nm.nodes_ = [(1, st)] →
          c5Nm.broadcastMessage 1 c5Msg = c5Nm)) :=
  ⟨by decide, broadcastMessage_delivers_except_self c5Nm 1 c5Msg (by decide)⟩

/-! ### Claim C4 -/

/-- Claim C4: on a ticker firing, an offload is attempted only when the
sampled depth is strictly greater than the configured threshold; when the
depth is at most the threshold - in particular equal to it - the
iteration is exactly the gossip broadcast: no task is popped and no
TaskTransfer is sent, and the node's own state is untouched. -/
theorem loadMonitorStep_no_offload_at_threshold (nm : NetworkManager) (me : Int)
    (st : PeerNode) (hme : lookupNode me nm.nodes_ = some st)
    (hth : st.getCurrentLoad ≤ st.load_threshold_) :
    loadMonitorStep me nm =
      nm.broadcastMessage me
        ((Message.mkMessage MessageType.LOAD_UPDATE me (-1)).setLoadValue
          st.getCurrentLoad) ∧
    lookupNode me (loadMonitorStep me nm).nodes_ = some st := by
  have h1 : loadMonitorStep me nm =
      nm.broadcastMessage me
        ((Message.mkMessage MessageType.LOAD_UPDATE me (-1)).setLoadValue
          st.getCurrentLoad) := by
    rw [loadMonitorStep_eq me nm st hme]
    simp only [if_neg (not_lt.mpr hth)]
  refine ⟨h1, ?_⟩
  rw [h1, lookupNode_broadcast_sender, hme]

/-- A one-node registry whose node sits exactly at its threshold: depth
2 with threshold 2. -/
def c4Nm : NetworkManager :=
  ⟨[(3, { id_ := 3, load_threshold_ := 2, tasks_processed_ := 0,
          task_queue_ := [⟨0, 1⟩, ⟨1, 1⟩],
          peer_loads_ := [(4, 0)], peers_ := [4],
          message_queue_ := [], running_ := true })]⟩

/-- The node state registered under id 3 in c4Nm. -/
def c4St : PeerNode :=
  { id_ := 3, load_threshold_ := 2, tasks_processed_ := 0,
    task_queue_ := [⟨0, 1⟩, ⟨1, 1⟩],
    peer_loads_ := [(4, 0)], peers_ := [4],
    message_queue_ := [], running_ := true }

/-- Claim C4, witnessed on a node whose depth equals its threshold (both
2): the tick reduces to the gossip broadcast alone. -/
theorem loadMonitorStep_no_offload_at_threshold_witness :
    lookupNode 3 c4Nm.nodes_ = some c4St ∧
    c4St.getCurrentLoad ≤ c4St.load_threshold_ ∧
    (loadMonitorStep 3 c4Nm =
      c4Nm.broadcastMessage 3
        ((Message.mkMessage MessageType.LOAD_UPDATE 3 (-1)).setLoadValue
          c4St.getCurrentLoad) ∧
    lookupNode 3 (loadMonitorStep 3 c4Nm).nodes_ = some c4St) :=
  ⟨by decide, by decide,
    loadMonitorStep_no_offload_at_threshold c4Nm 3 c4St (by decide) (by decide)⟩

/-! ### Claim C3 -/

theorem loadMonitorStep_eq_offload (me : Int) (nm : NetworkManager) (st : PeerNode)
    (t : Task) (rest : List Task)
    (hme : lookupNode me nm.nodes_ = some st)
    (hq : st.task_queue_ = t :: rest)
    (hth : st.getCurrentLoad > st.load_threshold_) :
    loadMonitorStep me nm =
      offloadTask me t ⟨updNode me PeerNode.popFront
        (nm.broadcastMessage me
          ((Message.mkMessage MessageType.LOAD_UPDATE me (-1)).setLoadValue
            st.getCurrentLoad)).nodes_⟩ := by
  unfold loadMonitorStep
  rw [hme]
  simp only [hq]
  rw [if_pos hth]

/-- Claim C3: during an offload attempt in which peer selection returns
absence, the task popped from the head of the queue is reinserted at the
tail of the local queue, so the multiset of queued tasks is preserved and
no task is dropped. -/
theorem offload_absence_reinserts_at_tail (nm : NetworkManager) (me : Int)
    (st : PeerNode) (t : Task) (rest : List Task)
    (hme : lookupNode me nm.nodes_ = some st)
    (hq : st.task_queue_ = t :: rest)
    (hth : st.getCurrentLoad > st.load_threshold_)
    (hsel : selectBestPeerFrom (rest.length : Int) st.peer_loads_ = -1) :
    lookupNode me (loadMonitorStep me nm).nodes_ =
      some { st with task_queue_ := rest ++ [t] } ∧
    ((rest ++ [t] : Multiset Task) = (st.task_queue_ : Multiset Task)) := by
  constructor
  · rw [loadMonitorStep_eq_offload me nm st t rest hme hq hth]
    set nm1 := nm.broadcastMessage me
      ((Message.mkMessage MessageType.LOAD_UPDATE me (-1)).setLoadValue
        st.getCurrentLoad) with hnm1
    have hlook1 : lookupNode me (updNode me PeerNode.popFront nm1.nodes_) =
        some st.popFront := by
      rw [lookupNode_updNode, if_pos rfl, hnm1, lookupNode_broadcast_sender, hme]
      rfl
    have hpop : st.popFront = { st with task_queue_ := rest } := by
      simp [PeerNode.popFront, hq]
    have hsel2 : st.popFront.selectBestPeer = -1 := by
      rw [hpop]
      show selectBestPeerFrom ((rest.length : Int)) st.peer_loads_ = -1
      exact hsel
    rw [offloadTask_eq me t ⟨updNode me PeerNode.popFront nm1.nodes_⟩ st.popFront hlook1]
    rw [if_neg (by rw [hsel2]; exact fun h => h rfl)]
    show lookupNode me (updNode me (fun n => n.addTask t)
      (updNode me PeerNode.popFront nm1.nodes_)) = _
    rw [lookupNode_updNode, if_pos rfl, hlook1]
    rw [hpop]
    simp [PeerNode.addTask]
  · rw [hq]
    exact Multiset.coe_eq_coe.mpr (List.perm_append_singleton t rest)

/-- A one-node registry over threshold with a view that names no cheaper
peer, for exercising Claim C3. -/
def c3Nm : NetworkManager :=
  ⟨[(0, { id_ := 0, load_threshold_ := 1, tasks_processed_ := 0,
          task_queue_ := [⟨10, 7⟩, ⟨11, 7⟩],
          peer_loads_ := [(5, 9)], peers_ := [5],
          message_queue_ := [], running_ := true })]⟩

/-- The node state registered under id 0 in c3Nm. -/
def c3St : PeerNode :=
  { id_ := 0, load_threshold_ := 1, tasks_processed_ := 0,
    task_queue_ := [⟨10, 7⟩, ⟨11, 7⟩],
    peer_loads_ := [(5, 9)], peers_ := [5],
    message_queue_ := [], running_ := true }

/-- Claim C3, witnessed on a node of depth 2, threshold 1, whose only
view entry is costlier than itself: the head task moves to the tail. -/
theorem offload_absence_reinserts_at_tail_witness :
    lookupNode 0 c3Nm.nodes_ = some c3St ∧
    c3St.task_queue_ = ⟨10, 7⟩ :: [⟨11, 7⟩] ∧
    c3St.getCurrentLoad > c3St.load_threshold_ ∧
    selectBestPeerFrom (([(⟨11, 7⟩ : Task)].length : Int)) c3St.peer_loads_ = -1 ∧
    (lookupNode 0 (loadMonitorStep 0 c3Nm).nodes_ =
      some { c3St with task_queue_ := [⟨11, 7⟩] ++ [⟨10, 7⟩] } ∧
    ((([⟨11, 7⟩] ++ [⟨10, 7⟩] : List Task) : Multiset Task) = (c3St.task_queue_ : Multiset Task))) :=
  ⟨by decide, by decide, by decide, by decide,
    offload_absence_reinserts_at_tail c3Nm 0 c3St (⟨10, 7⟩ : Task) ([⟨11, 7⟩] : List Task)
      (by decide) (by decide) (by decide) (by decide)⟩

/-! ### Claim C2 -/

/-- A one-node registry whose node's view names peer 7, which is not
registered, for exercising Claim C2. -/
def c2Nm : NetworkManager :=
  ⟨[(0, { id_ := 0, load_threshold_ := 0, tasks_processed_ := 0,
          task_queue_ := [⟨1, 3⟩],
          peer_loads_ := [(7, 0)], peers_ := [7],
          message_queue_ := [], running_ := true })]⟩

/-- The node state registered under id 0 in c2Nm. -/
def c2St : PeerNode :=
  { id_ := 0, load_threshold_ := 0, tasks_processed_ := 0,
    task_queue_ := [⟨1, 3⟩],
    peer_loads_ := [(7, 0)], peers_ := [7],
    message_queue_ := [], running_ := true }

/-- The task being offloaded in the Claim C2 scenario (already popped
from the queue, so it sits in no queue while in flight). -/
def c2Task : Task := ⟨99, 5⟩

/-- Claim C2 is false of the code: node 0 offloads to peer 7, the unicast
addresses an unregistered receiver, the registry is left completely
unchanged - the popped task is NOT reinserted into the sender's queue and
is lost. -/
theorem offload_unknown_receiver_counterexample :
    c2St.selectBestPeer = 7 ∧
    lookupNode 7 c2Nm.nodes_ = none ∧
    offloadTask 0 c2Task c2Nm = c2Nm ∧
    lookupNode 0 (offloadTask 0 c2Task c2Nm).nodes_ = some c2St ∧
    c2Task ∉ c2St.task_queue_ := by decide

/-- Claim C2 (amended): during an offload attempt, if the unicast of the
TaskTransfer addresses a receiver that is not registered, sendMessage
only logs and drops the message; the popped task is NOT reinserted into
the sender's local queue - the whole registry is unchanged and the task
is lost. -/
theorem offload_unknown_receiver_drops_task (nm : NetworkManager) (me : Int)
    (task : Task) (st : PeerNode)
    (hme : lookupNode me nm.nodes_ = some st)
    (hbp : st.selectBestPeer ≠ -1)
    (hnr : lookupNode st.selectBestPeer nm.nodes_ = none) :
    offloadTask me task nm = nm := by
  rw [offloadTask_eq me task nm st hme, if_pos hbp]
  unfold NetworkManager.sendMessage
  have hrec : ((Message.mkMessage MessageType.TASK_TRANSFER me
      st.selectBestPeer).setTask task).getReceiverId = st.selectBestPeer := rfl
  rw [hrec, hnr]

/-- Claim C2 (amended), witnessed on the concrete registry c2Nm. -/
theorem offload_unknown_receiver_drops_task_witness :
    lookupNode 0 c2Nm.nodes_ = some c2St ∧
    c2St.selectBestPeer ≠ -1 ∧
    lookupNode c2St.selectBestPeer c2Nm.nodes_ = none ∧
    offloadTask 0 c2Task c2Nm = c2Nm :=
  ⟨by decide, by decide, by decide,
    offload_unknown_receiver_drops_task c2Nm 0 c2Task c2St
      (by decide) (by decide) (by decide)⟩

/-! ### Claim C6 -/

/-- A stopped node with an empty inbox, for exercising Claim C6. -/
def c6St : PeerNode :=
  { id_ := 2, load_threshold_ := 5, tasks_processed_ := 0,
    task_queue_ := [], peer_loads_ := [], peers_ := [],
    message_queue_ := [], running_ := false }

/-- The message delivered to the stopped node in the Claim C6 scenario. -/
def c6Msg : Message :=
  (Message.mkMessage MessageType.LOAD_UPDATE 0 2).setLoadValue 4

/-- Claim C6 is false of the code: handleMessage consults running_ nowhere,
so on a stopped node the message is still appended - the inbox is NOT
left unchanged. -/
theorem handleMessage_stopped_counterexample :
    c6St.running_ = false ∧
    (c6St.handleMessage c6Msg).message_queue_ ≠ c6St.message_queue_ ∧
    (c6St.handleMessage c6Msg).message_queue_ = [c6Msg] := by decide

/-- Claim C6 (amended): handleMessage on a stopped node still appends the
message to the node's inbox (it is enqueued, not dropped; the stopped
message-processor loop simply never consumes it), and the call has no
other effect: every other field, including the running flag, is
untouched. -/
theorem handleMessage_appends_even_when_stopped (n : PeerNode) (m : Message)
    (hstop : n.running_ = false) :
    n.handleMessage m = { n with message_queue_ := n.message_queue_ ++ [m] } ∧
    (n.handleMessage m).running_ = false ∧
    (n.handleMessage m).task_queue_ = n.task_queue_ ∧
    (n.handleMessage m).peer_loads_ = n.peer_loads_ ∧
    (n.handleMessage m).peers_ = n.peers_ ∧
    (n.handleMessage m).tasks_processed_ = n.tasks_processed_ :=
  ⟨rfl, hstop, rfl, rfl, rfl, rfl⟩

/-- Claim C6 (amended), witnessed on the stopped node c6St. -/
theorem handleMessage_appends_even_when_stopped_witness :
    c6St.running_ = false ∧
    (c6St.handleMessage c6Msg =
        { c6St with message_queue_ := c6St.message_queue_ ++ [c6Msg] } ∧
      (c6St.handleMessage c6Msg).running_ = false ∧
      (c6St.handleMessage c6Msg).task_queue_ = c6St.task_queue_ ∧
      (c6St.handleMessage c6Msg).peer_loads_ = c6St.peer_loads_ ∧
      (c6St.handleMessage c6Msg).peers_ = c6St.peers_ ∧
      (c6St.handleMessage c6Msg).tasks_processed_ = c6St.tasks_processed_) :=
  ⟨by decide, handleMessage_appends_even_when_stopped c6St c6Msg (by decide)⟩

/-! ### Claim C7 -/

/-- A TASK_TRANSFER message on which the load accessor is misused, for
exercising Claim C7. -/
def c7Msg : Message :=
  (Message.mkMessage MessageType.TASK_TRANSFER 0 1).setLoadValue 5

/-- A LOAD_UPDATE message on which the task accessor is misused, for
exercising Claim C7. -/
def c7Msg2 : Message :=
  (Message.mkMessage MessageType.LOAD_UPDATE 2 (-1)).setTask ⟨42, 1⟩

/-- Claim C7 is false of the code: the accessors perform no variant
check. getLoadValue on a TASK_TRANSFER message yields the ordinary int 5,
indistinguishable from a genuine LOAD_UPDATE payload, and getTask on a
LOAD_UPDATE message yields an ordinary task - neither access is rejected
by absence or any WrongVariant failure. -/
theorem message_accessor_no_variant_check_counterexample :
    c7Msg.getType = MessageType.TASK_TRANSFER ∧
    c7Msg.getLoadValue = 5 ∧
    c7Msg.getLoadValue =
      ((Message.mkMessage MessageType.LOAD_UPDATE 0 (-1)).setLoadValue 5).getLoadValue ∧
    c7Msg2.getType = MessageType.LOAD_UPDATE ∧
    c7Msg2.getTask = some ⟨42, 1⟩ := by decide

/-- Claim C7 (amended): the payload accessors never consult the variant.
getLoadValue always returns the stored load field (0 for a freshly
constructed message of any type, the stored v after setLoadValue v) and
getTask always returns the stored pointer (none for a fresh message of
any type, some tk after setTask tk), for every message type alike; the
only None-like absence comes from the task field's null default, never
from a rejection of wrong-variant access. -/
theorem message_accessors_ignore_variant (ty : MessageType) (s r v : Int)
    (tk : Task) :
    (Message.mkMessage ty s r).getLoadValue = 0 ∧
    (Message.mkMessage ty s r).getTask = none ∧
    ((Message.mkMessage ty s r).setLoadValue v).getLoadValue = v ∧
    ((Message.mkMessage ty s r).setTask tk).getTask = some tk :=
  ⟨rfl, rfl, rfl, rfl⟩

/-! ### Claim C8 -/

/-- Claim C8: add_peer is idempotent - calling addPeer twice with the
same peer id yields exactly the same peer set as calling it once, and a
call with an already-present id leaves the node (hence its peer set)
unchanged. -/
theorem addPeer_idempotent (n : PeerNode) (p : Int) :
    (n.addPeer p).addPeer p = n.addPeer p ∧
    (p ∈ n.peers_ → n.addPeer p = n) := by
  constructor
  · by_cases h : p ∈ n.peers_
    · simp [PeerNode.addPeer, h]
    · simp [PeerNode.addPeer, h]
  · intro h
    simp [PeerNode.addPeer, h]

/-- A node that already knows peer 3, for exercising Claim C8. -/
def c8St : PeerNode :=
  { id_ := 1, load_threshold_ := 4, tasks_processed_ := 0,
    task_queue_ := [], peer_loads_ := [], peers_ := [3],
    message_queue_ := [], running_ := true }

/-- Claim C8, witnessed on c8St with peer 3 (already present, so the
second call - and even the first - changes nothing). -/
theorem addPeer_idempotent_witness :
    ((c8St.addPeer 3).addPeer 3 = c8St.addPeer 3 ∧
      (3 ∈ c8St.peers_ → c8St.addPeer 3 = c8St)) ∧
    c8St.addPeer 3 = c8St :=
  ⟨addPeer_idempotent c8St 3, (addPeer_idempotent c8St 3).2 (by decide)⟩

/-! ### Claim C9 -/

/-- Claim C9: the offload target is determined solely by the peer-load
map and the current local depth - two node states agreeing on queue
length and peer_loads_ (but possibly differing in peers_ or anything
else) produce the same selectBestPeer result; a peer id absent from the
peer-load map (other than the -1 sentinel) is never chosen, so a peer
wired via add_peer that never delivered a LoadUpdate is never an offload
destination; and processing any non-LoadUpdate message leaves peer_loads_
unchanged, so the map is populated only by received LoadUpdate messages. -/
theorem selectBestPeer_ignores_peers_list (n n' : PeerNode)
    (hq : n.task_queue_.length = n'.task_queue_.length)
    (hpl : n.peer_loads_ = n'.peer_loads_) :
    n.selectBestPeer = n'.selectBestPeer ∧
    (∀ p : Int, p ∉ n.peer_loads_.map Prod.fst → p ≠ -1 → n.selectBestPeer ≠ p) ∧
    (∀ m : Message, m.getType ≠ MessageType.LOAD_UPDATE →
      (n.processMessage m).peer_loads_ = n.peer_loads_) := by
  refine ⟨?_, ?_, ?_⟩
  · show selectBestPeerFrom ((n.task_queue_.length : Int)) n.peer_loads_ =
      selectBestPeerFrom ((n'.task_queue_.length : Int)) n'.peer_loads_
    rw [hq, hpl]
  · intro p hp hne
    show PeerNode.selectBestPeer n ≠ p
    unfold PeerNode.selectBestPeer selectBestPeerFrom
    by_cases hm : n.peer_loads_ = []
    · rw [if_pos hm]
      exact fun h => hne h.symm
    · rw [if_neg hm]
      rcases selectBestPeerLoop_mem n.peer_loads_ n.getCurrentLoad (-1) with heq | hmem
      · rw [heq]
        exact fun h => hne h.symm
      · intro h
        exact hp (h ▸ hmem)
  · intro m hm
    unfold PeerNode.processMessage
    cases hty : m.getType with
    | LOAD_UPDATE => exact absurd hty hm
    | TASK_TRANSFER =>
      cases htk : m.getTask with
      | some tk => simp [PeerNode.addTask]
      | none => rfl
    | PEER_DISCOVERY =>
      by_cases h : m.getSenderId ∈ n.peers_ <;> simp [PeerNode.addPeer, h]
    | TASK_REQUEST => rfl

/-- Two nodes for the Claim C9 witness: same queue length and peer-load
view, entirely different peer lists (peer 8 is wired on the second node
but absent from the view). -/
def c9St : PeerNode :=
  { id_ := 0, load_threshold_ := 3, tasks_processed_ := 0,
    task_queue_ := [⟨0, 2⟩, ⟨1, 2⟩], peer_loads_ := [(4, 1)], peers_ := [],
    message_queue_ := [], running_ := true }

/-- Companion node to c9St: identical view and depth, but it was wired to
peer 8 (which never gossiped) via add_peer. -/
def c9St' : PeerNode :=
  { id_ := 1, load_threshold_ := 9, tasks_processed_ := 5,
    task_queue_ := [⟨6, 1⟩, ⟨7, 1⟩], peer_loads_ := [(4, 1)], peers_ := [4, 8],
    message_queue_ := [], running_ := true }

/-- Claim C9, witnessed on c9St and c9St'. -/
theorem selectBestPeer_ignores_peers_list_witness :
    c9St.task_queue_.length = c9St'.task_queue_.length ∧
    c9St.peer_loads_ = c9St'.peer_loads_ ∧
    (c9St.selectBestPeer = c9St'.selectBestPeer ∧
      (∀ p : Int, p ∉ c9St.peer_loads_.map Prod.fst → p ≠ -1 →
        c9St.selectBestPeer ≠ p) ∧
      (∀ m : Message, m.getType ≠ MessageType.LOAD_UPDATE →
        (c9St.processMessage m).peer_loads_ = c9St.peer_loads_)) :=
  ⟨by decide, by decide,
    selectBestPeer_ignores_peers_list c9St c9St' (by decide) (by decide)⟩

/-! ### Claim C10 -/

/-- Claim C10: add_peer performs no self-check - any peer id not already
present, including the node's own id, is appended to the peer set, so
calling add_peer with the node's own id makes the node a member of its
own peer set. -/
theorem addPeer_no_self_check (n : PeerNode) (p : Int) (hp : p ∉ n.peers_) :
    (n.addPeer p).peers_ = n.peers_ ++ [p] ∧
    (n.id_ ∉ n.peers_ → n.id_ ∈ (n.addPeer n.id_).peers_) := by
  constructor
  · simp [PeerNode.addPeer, hp]
  · intro h
    simp [PeerNode.addPeer, h]

/-- A node with an empty peer set, for exercising Claim C10 with its own
id 5. -/
def c10St : PeerNode :=
  { id_ := 5, load_threshold_ := 2, tasks_processed_ := 0,
    task_queue_ := [], peer_loads_ := [], peers_ := [],
    message_queue_ := [], running_ := true }

/-- Claim C10, witnessed on c10St: adding the node's own id 5 appends it
to the node's peer set. -/
theorem addPeer_no_self_check_witness :
    (5 : Int) ∉ c10St.peers_ ∧
    ((c10St.addPeer 5).peers_ = c10St.peers_ ++ [5] ∧
      (c10St.id_ ∉ c10St.peers_ → c10St.id_ ∈ (c10St.addPeer c10St.id_).peers_)) ∧
    c10St.id_ ∈ (c10St.addPeer c10St.id_).peers_ :=
  ⟨by decide, addPeer_no_self_check c10St 5 (by decide),
    (addPeer_no_self_check c10St 5 (by decide)).2 (by decide)⟩

end LoadBalancer
